import Mathlib

/-!
Verification of the Gemini Live voice/video client (src/App.tsx,
src/components/AudioPulse.tsx, src/unnamed/part_000 = hooks/useLiveAPI.ts,
src/unnamed/part_001 = types.ts) against its natural-language specification.

The stateful hook useLiveAPI is embedded as a record of its refs and React
state cells (HookState) together with one pure step function per event
handler: connectStep for the synchronous body of connect(), onOpen for the
onopen callback, onAudioChunk for the audio-output branch of onmessage,
interruptStep for the interruption branch of onmessage, and disconnectStep
for disconnect().  Times (AudioContext clock values, buffer durations) are
rationals; timestamps on log entries are naturals.

Stopping an AudioBufferSourceNode is fallible in the source's own idiom: the
interruption handler wraps src.stop() in try/catch to swallow such errors,
while disconnect() calls s.stop() bare inside forEach.  Each modelled source
therefore carries a stopFails flag saying whether its stop() call throws;
interruptStep swallows the failure, disconnectStep propagates it (the
remaining statements of the teardown do not run), exactly as the code is
written.
-/

/-- Role of a log entry, from types.ts (part_001). -/
inductive Role where
  | user
  | model
  | system
deriving DecidableEq

/-- LogMessage from types.ts: role, text and a timestamp (modelled as ℕ). -/
structure LogMessage where
  role : Role
  text : String
  timestamp : Nat
deriving DecidableEq

/-- Last n elements of a list, in order — the behaviour of
JavaScript Array.prototype.slice(-n). -/
def takeLast (n : Nat) (l : List α) : List α := l.drop (l.length - n)

/-- addLog from App.tsx line 14: setLogs(prev, appended, sliced to last 50). -/
def addLog (logs : List LogMessage) (m : LogMessage) : List LogMessage :=
  takeLast 50 (logs ++ [m])

/-- A scheduled playback source (AudioBufferSourceNode with its start time and
buffer duration).  stopFails records whether its stop() call throws. -/
structure SourceNode where
  id : Nat
  start : ℚ
  duration : ℚ
  stopFails : Bool
deriving DecidableEq

/-- The refs and state cells of useLiveAPI (part_000 lines 11-20).
openSessions lists the ids of sessions that ai.live.connect created and
session.close() has not yet closed; the code holds only the newest in
sessionPromiseRef and never closes an older one on reconnect. -/
structure HookState where
  connected : Bool
  volume : ℚ
  sessionPromise : Option Nat
  openSessions : List Nat
  nextStartTime : ℚ
  audioSources : List SourceNode
  logs : List LogMessage
deriving DecidableEq

/-- The synchronous body of connect() (part_000 lines 22-45): if the API key
is absent, log and return; otherwise reset nextStartTime, log, and initiate a
fresh session (newSession), storing its promise.  No check for an existing
session is made and no previous session is closed.  connected is untouched
here (it flips in the onopen callback). -/
def connectStep (hasApiKey : Bool) (t : Nat) (newSession : Nat)
    (st : HookState) : HookState :=
  if hasApiKey then
    { st with
      nextStartTime := 0
      logs := addLog st.logs ⟨Role.system, "Connecting to Gemini Live...", t⟩
      sessionPromise := some newSession
      openSessions := st.openSessions ++ [newSession] }
  else
    { st with
      logs := addLog st.logs ⟨Role.system, "API Key not found in environment.", t⟩ }

/-- The onopen callback (part_000 lines 43-45): set connected, log. -/
def onOpen (t : Nat) (st : HookState) : HookState :=
  { st with
    connected := true
    logs := addLog st.logs ⟨Role.system, "Session Connected.", t⟩ }

/-- The audio-output branch of onmessage (part_000 lines 102-115): the new
source starts at max(ctx.currentTime, nextStartTime), is added to the pending
set, and the cursor advances to startTime + buffer.duration. -/
def onAudioChunk (now dur : ℚ) (srcId : Nat) (st : HookState) : HookState :=
  let startTime := max now st.nextStartTime
  { st with
    audioSources := st.audioSources ++ [⟨srcId, startTime, dur, false⟩]
    nextStartTime := startTime + dur }

/-- The interruption branch of onmessage (part_000 lines 119-126): log, call
stop() on every pending source with errors swallowed by try/catch, clear the
set, zero the cursor.  Returns the new state and the ids of the sources that
received a stop request (all of them, failing or not). -/
def interruptStep (t : Nat) (st : HookState) : HookState × List Nat :=
  ({ st with
      logs := addLog st.logs ⟨Role.system, "Interrupted by user.", t⟩
      audioSources := []
      nextStartTime := 0 },
   st.audioSources.map (fun s => s.id))

/-- The bare forEach(s => s.stop()) of disconnect() (part_000 line 162):
stop each source in order until one throws.  Returns the ids that received a
stop request and whether the loop finished without an exception. -/
def stopRun : List SourceNode → List Nat × Bool
  | [] => ([], true)
  | s :: rest =>
    if s.stopFails then ([s.id], false)
    else
      let r := stopRun rest
      (s.id :: r.1, r.2)

/-- session.close() as awaited by disconnect() (part_000 lines 152-155):
the session referenced by sessionPromiseRef, if any, is closed. -/
def closeSession (st : HookState) : HookState :=
  match st.sessionPromise with
  | some i => { st with openSessions := st.openSessions.erase i }
  | none => st

/-- disconnect() (part_000 lines 151-167): close the referenced session,
release the audio graph, then forEach-stop the pending sources with no
try/catch — if a stop throws, the exception propagates and the remaining
statements (clear, setConnected(false), setVolume(0)) never run.  Note that
nextStartTimeRef and sessionPromiseRef are not reset on either path. -/
def disconnectStep (st : HookState) : HookState × List Nat :=
  let st1 := closeSession st
  let r := stopRun st1.audioSources
  if r.2 then
    ({ st1 with audioSources := [], connected := false, volume := 0 }, r.1)
  else
    (st1, r.1)

/-- The start times produced by feeding a list of (clock time, duration)
chunks through the scheduling rule of onAudioChunk, threading the cursor. -/
def scheduleStarts (cursor : ℚ) : List (ℚ × ℚ) → List ℚ
  | [] => []
  | c :: rest => max c.1 cursor :: scheduleStarts (max c.1 cursor + c.2) rest

/-- Modelled from the spec: createPcmBlob of utils/audio is not among the
provided sources (only its import in part_000 line 3 is); per spec section
4.1 encode maps each sample linearly from the range -1..1 onto the signed
16-bit integers, clamping out-of-range input. -/
def encodeSample (x : ℚ) : ℤ :=
  max (-32768) (min 32767 (round (x * 32768)))

/-- Modelled from the spec: the per-sample inverse used by decodeAudioData of
utils/audio (not among the provided sources); per spec section 4.1 decode
interprets each signed 16-bit integer back as a float in -1..1. -/
def decodeSample (n : ℤ) : ℚ := (n : ℚ) / 32768

/-- Modelled from the spec: createPcmBlob encodes a frame samplewise. -/
def createPcmBlob (xs : List ℚ) : List ℤ := xs.map encodeSample

/-- Modelled from the spec: decodeAudioData decodes a payload samplewise. -/
def decodeAudioData (ns : List ℤ) : List ℚ := ns.map decodeSample

/-- The running sum of squares computed by the loop in onaudioprocess
(part_000 lines 56-59). -/
def sumSquaresLoop (xs : List ℚ) : ℚ := xs.foldl (fun s x => s + x * x) 0

/-- The volume published by onaudioprocess (part_000 lines 60-61):
min(1, sqrt(sum / length) * 5). -/
noncomputable def frameVolume (xs : List ℚ) : ℝ :=
  min 1 (Real.sqrt ((sumSquaresLoop xs : ℝ) / (xs.length : ℝ)) * 5)

/-- The root-mean-square of a frame, written as the mean of the squared
samples under a square root — the rms of the specification. -/
noncomputable def rmsSpec (xs : List ℚ) : ℝ :=
  Real.sqrt ((((xs.map (fun x => x * x)).sum : ℚ) : ℝ) / (xs.length : ℝ))

/-- A takeLast result never exceeds n elements. -/
theorem takeLast_length_le (n : Nat) (l : List α) : (takeLast n l).length ≤ n := by
  simp only [takeLast, List.length_drop]
  omega

/-- takeLast keeps a short list whole. -/
theorem takeLast_eq_self {n : Nat} {l : List α} (h : l.length ≤ n) :
    takeLast n l = l := by
  simp only [takeLast, Nat.sub_eq_zero_of_le h, List.drop_zero]

/-- Truncating to the last n elements before appending more does not change
the last n elements of the whole. -/
theorem takeLast_append_left (n : Nat) (l es : List α) :
    takeLast n (takeLast n l ++ es) = takeLast n (l ++ es) := by
  unfold takeLast
  rcases le_or_lt l.length n with h | h
  · rw [Nat.sub_eq_zero_of_le h, List.drop_zero]
  · have h1 : (l.drop (l.length - n)).length = n := by
      rw [List.length_drop]; omega
    rw [List.length_append, List.length_append, h1]
    rcases le_or_lt es.length n with he | he
    · have d1 : (l.drop (l.length - n) ++ es).drop (n + es.length - n)
          = (l.drop (l.length - n)).drop (n + es.length - n) ++ es :=
        List.drop_append_of_le_length (by rw [h1]; omega)
      have d2 : (l ++ es).drop (l.length + es.length - n)
          = l.drop (l.length + es.length - n) ++ es :=
        List.drop_append_of_le_length (by omega)
      rw [d1, d2, List.drop_drop]
      congr 2
      omega
    · have key : ∀ L : List α, L.length = n →
          (L ++ es).drop (n + (es.length - n)) = es.drop (es.length - n) := by
        intro L hL
        rw [← hL]
        exact List.drop_append _
      have e1 : n + es.length - n = n + (es.length - n) := by omega
      have e2 : l.length + es.length - n = l.length + (es.length - n) := by omega
      rw [e1, e2, key _ h1, List.drop_append]

/-- Folding addLog over a list of entries from any accumulator of at most 50
entries keeps exactly the last 50 of the concatenation. -/
theorem foldl_addLog (es : List LogMessage) :
    ∀ acc : List LogMessage, acc.length ≤ 50 →
      es.foldl addLog acc = takeLast 50 (acc ++ es) := by
  induction es with
  | nil =>
    intro acc h
    rw [List.foldl_nil, List.append_nil, takeLast_eq_self h]
  | cons e es ih =>
    intro acc h
    rw [List.foldl_cons, ih (addLog acc e) (takeLast_length_le 50 _)]
    show takeLast 50 (takeLast 50 (acc ++ [e]) ++ es) = takeLast 50 (acc ++ e :: es)
    rw [takeLast_append_left]
    congr 1
    simp

/-- Claim C1, counterexample: from a fresh state, two connect() calls with a
configured key and no intervening disconnect leave two open sessions, not
exactly one — the second call initiates a new session without closing or
rejecting anything. -/
theorem connect_twice_two_sessions :
    (connectStep true 1 2 (connectStep true 0 1
        ⟨false, 0, none, [], 0, [], []⟩)).openSessions = [1, 2]
    ∧ (connectStep true 1 2 (connectStep true 0 1
        ⟨false, 0, none, [], 0, [], []⟩)).openSessions.length ≠ 1 := by
  decide

/-- Claim C1, amended: connect() with a configured key performs no
existing-session check — it always initiates a fresh session, appends it to
the open sessions and overwrites the session reference with it; the previous
session, if any, is left open.  Only the reference is unique. -/
theorem connect_overwrites_session (st : HookState) (t newSession : Nat) :
    (connectStep true t newSession st).sessionPromise = some newSession
    ∧ (connectStep true t newSession st).openSessions
        = st.openSessions ++ [newSession] := by
  constructor <;> simp [connectStep]

/-- The entry just passed to addLog is always the last entry afterwards. -/
theorem getLast_addLog (l : List LogMessage) (m : LogMessage) :
    (addLog l m).getLast? = some m := by
  unfold addLog takeLast
  have hle : (l ++ [m]).length - 50 ≤ l.length := by
    rw [List.length_append, List.length_singleton]
    omega
  rw [List.drop_append_of_le_length hle, List.getLast?_concat]

/-- Claim C8: the log is a bounded, oldest-evicted buffer — appending any 60
entries to an empty log via addLog leaves exactly the 50 most recent, in
arrival order. -/
theorem log_keeps_last_fifty (es : List LogMessage) (h : es.length = 60) :
    es.foldl addLog [] = es.drop 10 ∧ (es.foldl addLog []).length = 50 := by
  have hfold : es.foldl addLog [] = takeLast 50 es := by
    rw [foldl_addLog es [] (by simp), List.nil_append]
  have hdrop : takeLast 50 es = es.drop 10 := by
    unfold takeLast
    rw [h]
  refine ⟨by rw [hfold, hdrop], ?_⟩
  rw [hfold, hdrop, List.length_drop, h]

/-- Claim C8, witness: sixty concrete entries, evaluated. -/
theorem log_keeps_last_fifty_witness :
    (List.replicate 60 (⟨Role.system, "entry", 0⟩ : LogMessage)).length = 60
    ∧ ((List.replicate 60 (⟨Role.system, "entry", 0⟩ : LogMessage)).foldl addLog []
        = (List.replicate 60 (⟨Role.system, "entry", 0⟩ : LogMessage)).drop 10
      ∧ ((List.replicate 60 (⟨Role.system, "entry", 0⟩ : LogMessage)).foldl
          addLog []).length = 50) :=
  ⟨by simp, log_keeps_last_fifty _ (by simp)⟩

/-- Claim C9: connect() without a configured API key attempts no session
call (session reference and open sessions unchanged), appends a system-role
log entry reporting the missing key, and the connected state remains false. -/
theorem connect_without_key (st : HookState) (t newSession : Nat)
    (h : st.connected = false) :
    (connectStep false t newSession st).sessionPromise = st.sessionPromise
    ∧ (connectStep false t newSession st).openSessions = st.openSessions
    ∧ (connectStep false t newSession st).connected = false
    ∧ (connectStep false t newSession st).logs
        = addLog st.logs ⟨Role.system, "API Key not found in environment.", t⟩
    ∧ (connectStep false t newSession st).logs.getLast?
        = some ⟨Role.system, "API Key not found in environment.", t⟩ := by
  refine ⟨rfl, rfl, h, rfl, ?_⟩
  exact getLast_addLog st.logs _

/-- Claim C9, witness: a fresh disconnected state, key absent, evaluated. -/
theorem connect_without_key_witness :
    (⟨false, 0, none, [], 0, [], []⟩ : HookState).connected = false
    ∧ ((connectStep false 7 0 ⟨false, 0, none, [], 0, [], []⟩).sessionPromise = none
      ∧ (connectStep false 7 0 ⟨false, 0, none, [], 0, [], []⟩).openSessions = []
      ∧ (connectStep false 7 0 ⟨false, 0, none, [], 0, [], []⟩).connected = false
      ∧ (connectStep false 7 0 ⟨false, 0, none, [], 0, [], []⟩).logs
          = addLog [] ⟨Role.system, "API Key not found in environment.", 7⟩
      ∧ (connectStep false 7 0 ⟨false, 0, none, [], 0, [], []⟩).logs.getLast?
          = some ⟨Role.system, "API Key not found in environment.", 7⟩) :=
  ⟨rfl, connect_without_key ⟨false, 0, none, [], 0, [], []⟩ 7 0 rfl⟩

/-- Iterating the scheduling rule never overlaps: each chunk's start time is
at least the previous chunk's start time plus its duration. -/
theorem scheduleStarts_nonoverlap (chunks : List (ℚ × ℚ)) :
    ∀ (cursor : ℚ) (k : Nat), k + 1 < chunks.length →
      (scheduleStarts cursor chunks).getD k 0 + (chunks.getD k (0, 0)).2
        ≤ (scheduleStarts cursor chunks).getD (k + 1) 0 := by
  induction chunks with
  | nil =>
    intro cursor k hk
    simp at hk
  | cons c rest ih =>
    intro cursor k hk
    cases k with
    | zero =>
      cases rest with
      | nil => simp at hk
      | cons c' rest' =>
        simp only [scheduleStarts, List.getD_cons_zero, List.getD_cons_succ]
        exact le_max_right _ _
    | succ j =>
      simp only [scheduleStarts, List.getD_cons_succ]
      exact ih _ j (by simpa using hk)

/-- Claim C2: each inbound decoded chunk is scheduled at
max(output clock, cursor), appended to the pending set, and the cursor
advances to start + duration; concretely a 0.5-duration chunk at clock 10
with cursor 9 starts at 10 and leaves the cursor at 10.5; and any sequence of
chunks scheduled without interruption is non-overlapping (start of chunk k+1
at least start of chunk k plus its duration). -/
theorem playback_scheduling (st : HookState) (now dur : ℚ) (srcId : Nat)
    (chunks : List (ℚ × ℚ)) (cursor : ℚ) (k : Nat)
    (hk : k + 1 < chunks.length) :
    ((onAudioChunk now dur srcId st).audioSources
        = st.audioSources ++ [⟨srcId, max now st.nextStartTime, dur, false⟩]
      ∧ (onAudioChunk now dur srcId st).nextStartTime
        = max now st.nextStartTime + dur)
    ∧ ((onAudioChunk 10 (1/2) 0 ⟨false, 0, none, [], 9, [], []⟩).audioSources
        = [⟨0, 10, 1/2, false⟩]
      ∧ (onAudioChunk 10 (1/2) 0 ⟨false, 0, none, [], 9, [], []⟩).nextStartTime
        = 21/2)
    ∧ (scheduleStarts cursor chunks).getD k 0 + (chunks.getD k (0, 0)).2
        ≤ (scheduleStarts cursor chunks).getD (k + 1) 0 := by
  have hm : max (10 : ℚ) 9 = 10 := max_eq_left (by norm_num)
  refine ⟨⟨rfl, rfl⟩, ⟨?_, ?_⟩, scheduleStarts_nonoverlap chunks cursor k hk⟩
  · simp only [onAudioChunk, List.nil_append]
    rw [hm]
  · simp only [onAudioChunk]
    rw [hm]
    norm_num

/-- Claim C2, witness: two concrete chunks, the bound discharged. -/
theorem playback_scheduling_witness :
    (0 : Nat) + 1 < ([((5 : ℚ), (2 : ℚ)), (6, 1)] : List (ℚ × ℚ)).length
    ∧ (((onAudioChunk 3 2 7 ⟨false, 0, none, [], 0, [], []⟩).audioSources
          = [] ++ [⟨7, max 3 0, 2, false⟩]
        ∧ (onAudioChunk 3 2 7 ⟨false, 0, none, [], 0, [], []⟩).nextStartTime
          = max 3 0 + 2)
      ∧ ((onAudioChunk 10 (1/2) 0 ⟨false, 0, none, [], 9, [], []⟩).audioSources
          = [⟨0, 10, 1/2, false⟩]
        ∧ (onAudioChunk 10 (1/2) 0 ⟨false, 0, none, [], 9, [], []⟩).nextStartTime
          = 21/2)
      ∧ (scheduleStarts 0 [((5 : ℚ), (2 : ℚ)), (6, 1)]).getD 0 0
          + (([((5 : ℚ), (2 : ℚ)), (6, 1)] : List (ℚ × ℚ)).getD 0 (0, 0)).2
          ≤ (scheduleStarts 0 [((5 : ℚ), (2 : ℚ)), (6, 1)]).getD 1 0) :=
  ⟨by decide,
    playback_scheduling ⟨false, 0, none, [], 0, [], []⟩ 3 2 7
      [(5, 2), (6, 1)] 0 0 (by decide)⟩

/-- Claim C3: the interruption handler issues a stop request to every pending
source (failures are swallowed, the flush always completes), empties the
pending set, and zeroes the cursor, so a chunk arriving next at clock time
now is scheduled to start exactly at now — never at a stale future time. -/
theorem interruption_flush (t : Nat) (st : HookState) (now dur : ℚ)
    (srcId : Nat) (hnow : 0 ≤ now) :
    (interruptStep t st).2 = st.audioSources.map (fun s => s.id)
    ∧ (interruptStep t st).1.audioSources = []
    ∧ (interruptStep t st).1.nextStartTime = 0
    ∧ (onAudioChunk now dur srcId (interruptStep t st).1).audioSources
        = [⟨srcId, now, dur, false⟩] := by
  refine ⟨rfl, rfl, rfl, ?_⟩
  simp only [onAudioChunk, interruptStep, List.nil_append]
  rw [max_eq_left hnow]

/-- Claim C3, witness: two pending sources, one whose stop throws; both
receive the stop request, and the post-flush chunk starts at the clock. -/
theorem interruption_flush_witness :
    (0 : ℚ) ≤ 4
    ∧ ((interruptStep 2 ⟨true, 0, some 1, [1], 8,
          [⟨0, 0, 3, true⟩, ⟨1, 3, 5, false⟩], []⟩).2
        = ([⟨0, 0, 3, true⟩, ⟨1, 3, 5, false⟩] : List SourceNode).map
            (fun s => s.id)
      ∧ (interruptStep 2 ⟨true, 0, some 1, [1], 8,
          [⟨0, 0, 3, true⟩, ⟨1, 3, 5, false⟩], []⟩).1.audioSources = []
      ∧ (interruptStep 2 ⟨true, 0, some 1, [1], 8,
          [⟨0, 0, 3, true⟩, ⟨1, 3, 5, false⟩], []⟩).1.nextStartTime = 0
      ∧ (onAudioChunk 4 6 9 (interruptStep 2 ⟨true, 0, some 1, [1], 8,
          [⟨0, 0, 3, true⟩, ⟨1, 3, 5, false⟩], []⟩).1).audioSources
        = [⟨9, 4, 6, false⟩]) :=
  ⟨by norm_num,
    interruption_flush 2 ⟨true, 0, some 1, [1], 8,
      [⟨0, 0, 3, true⟩, ⟨1, 3, 5, false⟩], []⟩ 4 6 9 (by norm_num)⟩

/-- When no stop fails, the bare forEach stop loop reaches every source and
finishes without an exception. -/
theorem stopRun_ok : ∀ srcs : List SourceNode,
    (∀ s ∈ srcs, s.stopFails = false) →
    stopRun srcs = (srcs.map (fun s => s.id), true)
  | [], _ => rfl
  | s :: rest, h => by
    have hs : s.stopFails = false := h s (List.mem_cons_self s rest)
    have hr := stopRun_ok rest (fun x hx => h x (List.mem_cons_of_mem s hx))
    simp [stopRun, hs, hr]

/-- Claim C4, counterexample: with three pending sources whose first stop
throws, disconnect() aborts mid-forEach — only the first source receives a
stop request, the pending set is not emptied, connected stays true, and the
volume is not reset, because the bare forEach of line 162 has no try/catch
and the exception skips the rest of the teardown. -/
theorem disconnect_stop_failure_aborts :
    (disconnectStep ⟨true, 1, some 5, [5], 3,
        [⟨0, 0, 1, true⟩, ⟨1, 1, 1, false⟩, ⟨2, 2, 1, false⟩], []⟩).2 = [0]
    ∧ (disconnectStep ⟨true, 1, some 5, [5], 3,
        [⟨0, 0, 1, true⟩, ⟨1, 1, 1, false⟩, ⟨2, 2, 1, false⟩], []⟩).1.connected
      = true
    ∧ (disconnectStep ⟨true, 1, some 5, [5], 3,
        [⟨0, 0, 1, true⟩, ⟨1, 1, 1, false⟩, ⟨2, 2, 1, false⟩], []⟩).1.audioSources
      ≠ []
    ∧ (disconnectStep ⟨true, 1, some 5, [5], 3,
        [⟨0, 0, 1, true⟩, ⟨1, 1, 1, false⟩, ⟨2, 2, 1, false⟩], []⟩).1.volume
      = 1 := by
  decide

/-- Claim C4, amended: disconnect() issues stop requests to the pending
sources in order and, provided every stop succeeds (the forEach has no
try/catch, so a stop failure would abort the remaining teardown), empties
the pending set, sets connected to false and resets the volume to 0; in
particular with three pending sources all three receive a stop request. -/
theorem disconnect_teardown (st : HookState)
    (h : ∀ s ∈ st.audioSources, s.stopFails = false) :
    (disconnectStep st).2 = st.audioSources.map (fun s => s.id)
    ∧ (disconnectStep st).1.audioSources = []
    ∧ (disconnectStep st).1.connected = false
    ∧ (disconnectStep st).1.volume = 0 := by
  have h1 : (closeSession st).audioSources = st.audioSources := by
    unfold closeSession
    cases st.sessionPromise <;> rfl
  have h2 := stopRun_ok st.audioSources h
  simp only [disconnectStep, h1, h2]
  exact ⟨rfl, rfl, rfl, rfl⟩

/-- Claim C4, witness: three pending sources, none failing, evaluated. -/
theorem disconnect_teardown_witness :
    (∀ s ∈ ([⟨0, 0, 1, false⟩, ⟨1, 1, 1, false⟩, ⟨2, 2, 1, false⟩] :
        List SourceNode), s.stopFails = false)
    ∧ ((disconnectStep ⟨true, 1, some 5, [5], 3,
          [⟨0, 0, 1, false⟩, ⟨1, 1, 1, false⟩, ⟨2, 2, 1, false⟩], []⟩).2
        = ([⟨0, 0, 1, false⟩, ⟨1, 1, 1, false⟩, ⟨2, 2, 1, false⟩] :
            List SourceNode).map (fun s => s.id)
      ∧ (disconnectStep ⟨true, 1, some 5, [5], 3,
          [⟨0, 0, 1, false⟩, ⟨1, 1, 1, false⟩, ⟨2, 2, 1, false⟩],
          []⟩).1.audioSources = []
      ∧ (disconnectStep ⟨true, 1, some 5, [5], 3,
          [⟨0, 0, 1, false⟩, ⟨1, 1, 1, false⟩, ⟨2, 2, 1, false⟩],
          []⟩).1.connected = false
      ∧ (disconnectStep ⟨true, 1, some 5, [5], 3,
          [⟨0, 0, 1, false⟩, ⟨1, 1, 1, false⟩, ⟨2, 2, 1, false⟩],
          []⟩).1.volume = 0) :=
  ⟨by decide,
    disconnect_teardown ⟨true, 1, some 5, [5], 3,
      [⟨0, 0, 1, false⟩, ⟨1, 1, 1, false⟩, ⟨2, 2, 1, false⟩], []⟩ (by decide)⟩

/-- Claim C5, counterexample: after scheduling a chunk at clock 10 with
duration 1 the cursor is 11, and disconnect() leaves it at 11 — the code of
disconnect() (part_000 lines 151-167) never touches nextStartTimeRef, so the
cursor is not zero after disconnect completes. -/
theorem disconnect_keeps_stale_cursor :
    (disconnectStep (onAudioChunk 10 1 0
        ⟨true, 0, some 1, [1], 9, [], []⟩)).1.nextStartTime = 11
    ∧ (disconnectStep (onAudioChunk 10 1 0
        ⟨true, 0, some 1, [1], 9, [], []⟩)).1.nextStartTime ≠ 0 := by
  have hc : (onAudioChunk 10 1 0
      ⟨true, 0, some 1, [1], 9, [], []⟩).nextStartTime = 11 := by
    simp only [onAudioChunk]
    rw [max_eq_left (by norm_num : (9 : ℚ) ≤ 10)]
    norm_num
  have hd : ∀ st : HookState,
      (disconnectStep st).1.nextStartTime = st.nextStartTime := by
    intro st
    have h1 : (closeSession st).nextStartTime = st.nextStartTime := by
      unfold closeSession
      cases st.sessionPromise <;> rfl
    simp only [disconnectStep]
    by_cases hb : (stopRun (closeSession st).audioSources).2 <;>
      simp [hb, h1]
  rw [hd, hc]
  norm_num

/-- Claim C5, amended: the cursor advances monotonically at each scheduled
chunk (for nonnegative durations) and is reset to zero on interruption and
at the start of connect() with a configured key; disconnect() leaves it
unchanged — session end does not reset it, the next connect() does. -/
theorem cursor_reset_policy (st st2 st3 st4 : HookState) (now dur : ℚ)
    (srcId t t2 newSession : Nat) (hdur : 0 ≤ dur) :
    st.nextStartTime ≤ (onAudioChunk now dur srcId st).nextStartTime
    ∧ (interruptStep t st2).1.nextStartTime = 0
    ∧ (connectStep true t2 newSession st3).nextStartTime = 0
    ∧ (disconnectStep st4).1.nextStartTime = st4.nextStartTime := by
  refine ⟨?_, rfl, by simp [connectStep], ?_⟩
  · calc st.nextStartTime ≤ max now st.nextStartTime := le_max_right _ _
      _ ≤ max now st.nextStartTime + dur := le_add_of_nonneg_right hdur
  · have h1 : (closeSession st4).nextStartTime = st4.nextStartTime := by
      unfold closeSession
      cases st4.sessionPromise <;> rfl
    simp only [disconnectStep]
    by_cases hb : (stopRun (closeSession st4).audioSources).2 <;>
      simp [hb, h1]

/-- Claim C5 amended, witness: concrete states, nonnegative duration. -/
theorem cursor_reset_policy_witness :
    (0 : ℚ) ≤ 2
    ∧ ((⟨false, 0, none, [], 3, [], []⟩ : HookState).nextStartTime
        ≤ (onAudioChunk 7 2 0 ⟨false, 0, none, [], 3, [], []⟩).nextStartTime
      ∧ (interruptStep 1 ⟨true, 0, some 1, [1], 8, [], []⟩).1.nextStartTime = 0
      ∧ (connectStep true 2 4 ⟨false, 0, none, [], 6, [], []⟩).nextStartTime = 0
      ∧ (disconnectStep ⟨true, 0, some 1, [1], 5, [], []⟩).1.nextStartTime
        = (⟨true, 0, some 1, [1], 5, [], []⟩ : HookState).nextStartTime) :=
  ⟨by norm_num,
    cursor_reset_policy ⟨false, 0, none, [], 3, [], []⟩
      ⟨true, 0, some 1, [1], 8, [], []⟩ ⟨false, 0, none, [], 6, [], []⟩
      ⟨true, 0, some 1, [1], 5, [], []⟩ 7 2 0 1 2 4 (by norm_num)⟩

/-- Quantization error of one encode/decode round trip: at most 1/32768 for
any sample in the legal range. -/
theorem decodeSample_encodeSample (x : ℚ) (h1 : -1 ≤ x) (h2 : x ≤ 1) :
    |decodeSample (encodeSample x) - x| ≤ 1 / 32768 := by
  have hr : |x * 32768 - (round (x * 32768) : ℚ)| ≤ 1 / 2 :=
    abs_sub_round (x * 32768)
  rw [abs_le] at hr
  obtain ⟨hr1, hr2⟩ := hr
  set n : ℤ := round (x * 32768) with hn
  have hlow : (-32768 : ℤ) ≤ n := by
    have hq : (-32769 : ℚ) < (n : ℚ) := by nlinarith
    have hz : (-32769 : ℤ) < n := by exact_mod_cast hq
    omega
  have henc : encodeSample x = min 32767 n := by
    unfold encodeSample
    rw [← hn]
    exact max_eq_right (le_min (by omega) hlow)
  rcases le_or_lt n 32767 with hc | hc
  · rw [henc, min_eq_right hc]
    unfold decodeSample
    rw [abs_le]
    constructor <;> nlinarith [hr1, hr2]
  · rw [henc, min_eq_left (by omega : (32767 : ℤ) ≤ n)]
    unfold decodeSample
    have hx : (32767.5 : ℚ) ≤ x * 32768 := by
      have : (32768 : ℚ) ≤ (n : ℚ) := by exact_mod_cast hc
      nlinarith
    rw [abs_le]
    push_cast
    constructor <;> nlinarith

/-- Claim C6: the PCM codec round trip reproduces every legal frame within
the quantization error, elementwise: for a frame of samples in the range
-1..1, decoding its encoding yields a list related pointwise to the original
by a difference of at most 1/32768.  Both directions are pure functions of
their input (deterministic, no side effects). -/
theorem pcm_round_trip (xs : List ℚ) (h : ∀ x ∈ xs, -1 ≤ x ∧ x ≤ 1) :
    List.Forall₂ (fun y x => |y - x| ≤ 1 / 32768)
      (decodeAudioData (createPcmBlob xs)) xs := by
  induction xs with
  | nil => exact List.Forall₂.nil
  | cons a l ih =>
    have ha := h a (List.mem_cons_self a l)
    exact List.Forall₂.cons
      (decodeSample_encodeSample a ha.1 ha.2)
      (ih fun x hx => h x (List.mem_cons_of_mem a hx))

/-- Claim C6, witness: a concrete frame including both boundary values. -/
theorem pcm_round_trip_witness :
    (∀ x ∈ ([1, -1, 1/2, 0, 3/10] : List ℚ), -1 ≤ x ∧ x ≤ 1)
    ∧ List.Forall₂ (fun y x => |y - x| ≤ 1 / 32768)
        (decodeAudioData (createPcmBlob [1, -1, 1/2, 0, 3/10]))
        [1, -1, 1/2, 0, 3/10] :=
  ⟨by norm_num, pcm_round_trip [1, -1, 1/2, 0, 3/10] (by norm_num)⟩

/-- The running-sum loop of onaudioprocess computes the sum of the squared
samples. -/
theorem sumSquaresLoop_eq (xs : List ℚ) :
    sumSquaresLoop xs = (xs.map (fun x => x * x)).sum := by
  have key : ∀ (l : List ℚ) (s : ℚ),
      l.foldl (fun a x => a + x * x) s = s + (l.map (fun x => x * x)).sum := by
    intro l
    induction l with
    | nil => intro s; simp
    | cons a l ih =>
      intro s
      rw [List.foldl_cons, ih, List.map_cons, List.sum_cons]
      ring
  unfold sumSquaresLoop
  rw [key]
  ring

/-- Claim C7: the volume published for a captured frame is
min(1, rms x 5), where rms is the root-mean-square of the frame's samples;
in particular a frame of 4096 all-zero samples has rms 0 and published
volume 0. -/
theorem capture_volume_formula (xs : List ℚ) :
    frameVolume xs = min 1 (rmsSpec xs * 5)
    ∧ rmsSpec (List.replicate 4096 (0 : ℚ)) = 0
    ∧ frameVolume (List.replicate 4096 (0 : ℚ)) = 0 := by
  have e1 : ((List.replicate 4096 (0 : ℚ)).map (fun x => x * x)).sum = 0 := by
    rw [List.map_replicate, List.sum_replicate]
    norm_num
  have hz : sumSquaresLoop (List.replicate 4096 (0 : ℚ)) = 0 := by
    rw [sumSquaresLoop_eq, e1]
  refine ⟨?_, ?_, ?_⟩
  · unfold frameVolume rmsSpec
    rw [sumSquaresLoop_eq]
  · unfold rmsSpec
    rw [e1]
    norm_num
  · unfold frameVolume
    rw [hz]
    norm_num [Real.sqrt_zero]

/-- Claim C10: for every captured frame, the volume value published to the
visualizer lies in the unit interval — the square root is nonnegative, so
the amplified value is nonnegative, and the min caps it at 1. -/
theorem volume_unit_interval (xs : List ℚ) :
    0 ≤ frameVolume xs ∧ frameVolume xs ≤ 1 := by
  refine ⟨le_min (by norm_num) ?_, min_le_left _ _⟩
  exact mul_nonneg (Real.sqrt_nonneg _) (by norm_num)
